import Mathlib

set_option maxRecDepth 10000

/-!
Verification of the capability-resolution engine of `gputester` (src/main.cpp).

The Windows APIs the program calls (DXGI, user32, gdi32, setupapi, the
registry wrapper) are modelled as explicit environments recording what each
native call would return; the decision logic of the program itself is
translated function by function.  Wide strings are modelled as `List Char`,
machine integers as `Nat`/`Int`, and single-precision float arithmetic as
exact rationals rounded to the binary32 grid by `round32` (round to nearest,
ties to even, 24-bit significand).
-/

/-- Number of binary digits of a natural number, with explicit fuel so the
definition reduces in the kernel. -/
def bitsAux : Nat → Nat → Nat
  | 0, _ => 0
  | fuel + 1, n => if n = 0 then 0 else bitsAux fuel (n / 2) + 1

/-- Number of binary digits of `n` (`0` for `0`).  The fuel `128` makes this
exact for every `n < 2 ^ 128`; all quantities reaching it here are derived
from 32- and 64-bit machine integers scaled by at most `2 ^ 24`. -/
def bits (n : Nat) : Nat := bitsAux 128 n

/-- Round `N / D` (with `D > 0`) to the nearest integer, ties to even. -/
def rne (N D : Nat) : Nat :=
  let t := N / D
  let r := N % D
  if 2 * r < D then t
  else if D < 2 * r then t + 1
  else if t % 2 = 0 then t else t + 1

/-- Decide `2 ^ c ≤ a / b` for naturals `a b > 0` and an integer `c`. -/
def pow2le (c : Int) (a b : Nat) : Bool :=
  if 0 ≤ c then decide (b * 2 ^ c.toNat ≤ a) else decide (b ≤ a * 2 ^ (-c).toNat)

/-- Floor of the base-2 logarithm of `a / b` for naturals `a b > 0`. -/
def qfloorLog2 (a b : Nat) : Int :=
  let c : Int := (bits a : Int) - (bits b : Int)
  if pow2le c a b then c else c - 1

/-- Round the positive rational `a / b` to the binary32 grid: 24 significand
bits, round to nearest, ties to even (overflow/subnormal range not reached by
the program's inputs). -/
def round32pos (a b : Nat) : ℚ :=
  let s := qfloorLog2 a b
  let sh : Int := 23 - s
  let N := if 0 ≤ sh then a * 2 ^ sh.toNat else a
  let D := if 0 ≤ sh then b else b * 2 ^ (-sh).toNat
  let m := rne N D
  if 0 ≤ sh then (m : ℚ) / ((2 ^ sh.toNat : Nat) : ℚ)
  else ((m * 2 ^ (-sh).toNat : Nat) : ℚ)

/-- Round a rational to the value of the nearest IEEE-754 binary32 float
(round to nearest, ties to even), modelling a C `float` computation result. -/
def round32 (q : ℚ) : ℚ :=
  if q = 0 then 0
  else if 0 < q then round32pos q.num.natAbs q.den
  else -(round32pos q.num.natAbs q.den)

/-! ## Wide strings

`std::wstring` values are modelled as `List Char`.  The helpers below mirror
the `std::wstring` member functions the program uses: `find` of a character
(`findCharIdx`, `findCharFrom`), `find` of a substring compared with `npos`
(`hasSub`), `substr`, truncation at the first embedded NUL (`shrinkToFit`,
the program's own helper), `erase(index, 1)` and the throwing
`insert(pos, s)`. -/

/-- Index of the first occurrence of `c`, as `wstring::find(c)` (`none` for
`npos`). -/
def findCharIdx : List Char → Char → Option Nat
  | [], _ => none
  | d :: t, c => if d = c then some 0 else (findCharIdx t c).map (· + 1)

/-- Index of the first occurrence of `c` at or after `start`, as
`wstring::find(c, start)`. -/
def findCharFrom (s : List Char) (c : Char) (start : Nat) : Option Nat :=
  (findCharIdx (s.drop start) c).map (· + start)

/-- Does `s` begin with `p`? -/
def beginsWith : List Char → List Char → Bool
  | _, [] => true
  | [], _ :: _ => false
  | c :: cs, d :: ds => c = d && beginsWith cs ds

/-- `hay.find(needle) != npos`: does `needle` occur as a contiguous substring
of `hay`? -/
def hasSub : List Char → List Char → Bool
  | [], needle => beginsWith [] needle
  | c :: t, needle => beginsWith (c :: t) needle || hasSub t needle

/-- The program's `shrinkToFit` lambda: truncate an over-allocated,
NUL-padded OS string at its first embedded terminator. -/
def shrinkToFit (s : List Char) : List Char :=
  match findCharIdx s (Char.ofNat 0) with
  | none => s
  | some i => s.take i

/-- Decimal digits of a natural number, as `std::to_wstring` renders it
(fuel-structural so it reduces in the kernel). -/
def natDigitsAux : Nat → Nat → List Char
  | 0, _ => []
  | fuel + 1, n =>
    if n < 10 then [Char.ofNat (48 + n)]
    else natDigitsAux fuel (n / 10) ++ [Char.ofNat (48 + n % 10)]

/-- `std::to_wstring` of a natural number. -/
def natStr (n : Nat) : List Char := natDigitsAux 128 n


/-! ## Vendor mapping (`vendor_t`, `vendorIdMap`, `vendorNameMap`,
`vendorIdToVendor`) -/

/-- The `vendor_t` enumeration of src/main.cpp. -/
inductive vendor_t where
  | Unknown
  | AMD
  | Apple
  | ARM
  | Google
  | ImgTec
  | Intel
  | Microsoft
  | Nvidia
  | Qualcomm
  | Samsung
  | Broadcom
  | VMWare
  | VirtIO
  | Vivante
  | VeriSilicon
  | Kazan
  | CodePlay
  | Mesa
  | PoCL
deriving DecidableEq

/-- The `vendorIdMap` table: 64-bit vendor id → vendor, entry for entry. -/
def vendorIdMap : List (Nat × vendor_t) :=
  [ (0x0000,  vendor_t.Unknown),
    (0x1002,  vendor_t.AMD),
    (0x106B,  vendor_t.Apple),
    (0x13B5,  vendor_t.ARM),
    (0x1AE0,  vendor_t.Google),
    (0x1010,  vendor_t.ImgTec),
    (0x8086,  vendor_t.Intel),
    (0x1414,  vendor_t.Microsoft),
    (0x10DE,  vendor_t.Nvidia),
    (0x5143,  vendor_t.Qualcomm),
    (0x144D,  vendor_t.Samsung),
    (0x14E4,  vendor_t.Broadcom),
    (0x15AD,  vendor_t.VMWare),
    (0x1AF4,  vendor_t.VirtIO),
    (0x10001, vendor_t.Vivante),
    (0x10002, vendor_t.VeriSilicon),
    (0x10003, vendor_t.Kazan),
    (0x10004, vendor_t.CodePlay),
    (0x10005, vendor_t.Mesa),
    (0x10006, vendor_t.PoCL) ]

/-- The `vendorNameMap` table: vendor → display name, entry for entry. -/
def vendorNameMap : List (vendor_t × List Char) :=
  [ (vendor_t.Unknown,     ("Unknown".toList)),
    (vendor_t.AMD,         ("AMD".toList)),
    (vendor_t.Apple,       ("Apple".toList)),
    (vendor_t.ARM,         ("ARM".toList)),
    (vendor_t.Google,      ("Google".toList)),
    (vendor_t.ImgTec,      ("Img Tec".toList)),
    (vendor_t.Intel,       ("Intel".toList)),
    (vendor_t.Microsoft,   ("Microsoft".toList)),
    (vendor_t.Nvidia,      ("Nvidia".toList)),
    (vendor_t.Qualcomm,    ("Qualcomm".toList)),
    (vendor_t.Samsung,     ("Samsung".toList)),
    (vendor_t.Broadcom,    ("Broadcom".toList)),
    (vendor_t.VMWare,      ("VMWare".toList)),
    (vendor_t.VirtIO,      ("VirtIO".toList)),
    (vendor_t.Vivante,     ("Vivante".toList)),
    (vendor_t.VeriSilicon, ("VeriSilicon".toList)),
    (vendor_t.Kazan,       ("Kazan".toList)),
    (vendor_t.CodePlay,    ("CodePlay".toList)),
    (vendor_t.Mesa,        ("Mesa".toList)),
    (vendor_t.PoCL,        ("PoCL".toList)) ]

/-- `unordered_map::find` on the id table. -/
def idMapFind : List (Nat × vendor_t) → Nat → Option vendor_t
  | [], _ => none
  | (k, v) :: rest, i => if k = i then some v else idMapFind rest i

/-- `unordered_map::find` on the name table. -/
def nameMapFind : List (vendor_t × List Char) → vendor_t → Option (List Char)
  | [], _ => none
  | (k, n) :: rest, v => if k = v then some n else nameMapFind rest v

/-- `vendorIdToVendor` of src/main.cpp: table lookup with `Unknown`
fallback. -/
def vendorIdToVendor (vendorId : Nat) : vendor_t :=
  match idMapFind vendorIdMap vendorId with
  | some v => v
  | none => vendor_t.Unknown

/-! ## Driver-version rewriting (`getDriverInfo`, lines 604-662)

The NVIDIA branch: take the last six characters of the version
(`substr(size - 6)`), repeatedly erase the first `'.'`
(`for (index = find('.'); ...) erase(index, 1)`), then `insert(3, L".")`,
which throws `std::out_of_range` when `3 > size()` — modelled as
`Except.error ()`. -/

deriving instance DecidableEq for Except

/-- One pass of the erase loop body applied until no `'.'` remains; the fuel
equals the loop's maximal iteration count (each pass erases one character),
so `removeAllDotsAux s.length s` runs the loop to completion. -/
def removeAllDotsAux : Nat → List Char → List Char
  | 0, s => s
  | fuel + 1, s =>
    match findCharIdx s '.' with
    | none => s
    | some i => removeAllDotsAux fuel (s.eraseIdx i)

/-- The NVIDIA branch's erase loop: remove every `'.'` by repeatedly finding
and erasing the first one. -/
def removeAllDots (s : List Char) : List Char := removeAllDotsAux s.length s

/-- `wstring::insert(pos, s)` of one character: throws `std::out_of_range`
(modelled as `Except.error ()`) when `pos` exceeds the length. -/
def insertAt (s : List Char) (pos : Nat) (c : Char) : Except Unit (List Char) :=
  if pos ≤ s.length then Except.ok (s.take pos ++ c :: s.drop pos)
  else Except.error ()

/-- The NVIDIA version rewrite (applied when the provider contains
`"NVIDIA"`): versions shorter than six characters pass through; otherwise
take the last six characters, erase the dots, and insert a dot at
position 3. -/
def nvidiaRewrite (v : List Char) : Except Unit (List Char) :=
  if 6 ≤ v.length then
    insertAt (removeAllDots (v.drop (v.length - 6))) 3 '.'
  else Except.ok v

/-- The Intel version rewrite (applied when the provider contains
`"Intel"`): find the first `'.'`, then the next `'.'` after it, and keep the
suffix starting at that second `'.'` (`substr(index)`). -/
def intelRewrite (v : List Char) : List Char :=
  match findCharIdx v '.' with
  | none => v
  | some i =>
    match findCharFrom v '.' (i + 1) with
    | none => v
    | some j => v.drop j


/-! ## Display-configuration resolver: SDR white level and refresh rate

`getSdrWhiteLevelInNit` (lines 431-449) walks the matched paths and converts
the first successfully queried raw SDR white level with
`static_cast<float>(raw) / 1000.f * 80.f`.  A path is modelled by the
outcome of its `DisplayConfigGetDeviceInfo` white-level query
(`some raw` = `ERROR_SUCCESS` with that value, `none` = failure, which is
logged and skipped). -/

/-- The program's white-level formula, one binary32 rounding per float
operation: `float(raw) / 1000.f * 80.f`. -/
def sdrNits (raw : Nat) : ℚ :=
  round32 (round32 (round32 (raw : ℚ) / 1000) * 80)

/-- The per-path loop of `getSdrWhiteLevelInNit`: first successful query
wins, failures are skipped. -/
def sdrLoop : List (Option Nat) → Option ℚ
  | [] => none
  | some raw :: _ => some (sdrNits raw)
  | none :: rest => sdrLoop rest

/-- `getSdrWhiteLevelInNit`: fails when `DisplayConfigGetDeviceInfo` is
unavailable, otherwise returns the converted value of the first path whose
query succeeds (`none` = the function returns `false`). -/
def getSdrWhiteLevelInNit (deviceInfoAvail : Bool) (paths : List (Option Nat)) : Option ℚ :=
  if deviceInfoAvail then sdrLoop paths else none

/-- `DXGI_RATIONAL`: refresh rate as 32-bit numerator/denominator. -/
structure DXGI_RATIONAL where
  Numerator : Nat
  Denominator : Nat
deriving DecidableEq

/-- `float(Numerator) / float(Denominator)`, each float operation rounded. -/
def rationalRate (r : DXGI_RATIONAL) : ℚ :=
  round32 (round32 (r.Numerator : ℚ) / round32 (r.Denominator : ℚ))

/-- Outcomes of the native calls `getRefreshRate` (lines 451-490) can make
after the path scan: the `EnumDisplaySettingsW` pointer and its result
(`some freq` = call succeeded reporting `dmDisplayFrequency = freq`), the
gdi32 pointers, the result of `CreateDCW`/`GetDeviceCaps(VREFRESH)`
(`some caps` = a device context was created and reported `caps`, `none` =
`CreateDCW` returned null), and whether `DeleteDC` succeeds (logged only). -/
structure RefreshEnv where
  enumAvail : Bool
  enumResult : Option Nat
  gdiAvail : Bool
  createDCResult : Option Int
  deleteDCOk : Bool
deriving DecidableEq

/-- How many times each legacy source was consulted (calls to
`EnumDisplaySettingsW` and to `CreateDCW`), how many device contexts were
actually created (`CreateDCW` returned non-null), and how many `DeleteDC`
calls were made. -/
structure CallTrace where
  enumCalls : Nat
  createDCCalls : Nat
  dcCreated : Nat
  deleteDCCalls : Nat
deriving DecidableEq

/-- Steps (b) and (c) of the refresh-rate fallback chain, reached only when
no path offered a usable numerator/denominator pair: `EnumDisplaySettingsW`
(value accepted only when `> 1`), then `CreateDCW` +
`GetDeviceCaps(VREFRESH)` (same `> 1` rule, `DeleteDC` called as soon as the
context exists, before the value test). -/
def refreshFallback (env : RefreshEnv) : Option ℚ × CallTrace :=
  let ec : Nat := if env.enumAvail then 1 else 0
  let enumVal : Option ℚ :=
    if env.enumAvail then
      match env.enumResult with
      | some freq => if 1 < freq then some (round32 (freq : ℚ)) else none
      | none => none
    else none
  match enumVal with
  | some r => (some r, ⟨ec, 0, 0, 0⟩)
  | none =>
    if env.gdiAvail then
      match env.createDCResult with
      | some caps =>
        if 1 < caps then (some (round32 (caps : ℚ)), ⟨ec, 1, 1, 1⟩)
        else (none, ⟨ec, 1, 1, 1⟩)
      | none => (none, ⟨ec, 1, 0, 0⟩)
    else (none, ⟨ec, 0, 0, 0⟩)

/-- `getRefreshRate`: scan the matched paths for a target refresh rate with
positive numerator and denominator; if none, give up when the device name is
empty, else fall back to the legacy sources.  `none` = the function returns
`false` and the caller keeps its 60 Hz default. -/
def getRefreshRate (env : RefreshEnv) (deviceNameEmpty : Bool) :
    List DXGI_RATIONAL → Option ℚ × CallTrace
  | [] =>
    if deviceNameEmpty then (none, ⟨0, 0, 0, 0⟩) else refreshFallback env
  | p :: rest =>
    if 0 < p.Numerator ∧ 0 < p.Denominator then (some (rationalRate p), ⟨0, 0, 0, 0⟩)
    else getRefreshRate env deviceNameEmpty rest

/-- A path's target refresh rate is usable: numerator and denominator both
positive. -/
def usablePath (p : DXGI_RATIONAL) : Prop :=
  0 < p.Numerator ∧ 0 < p.Denominator

/-- The `EnumDisplaySettingsW` step yields no usable value: the symbol is
unavailable, the call fails, or the reported frequency is 0 or 1 (hardware
default). -/
def enumNoAnswer (env : RefreshEnv) : Prop :=
  env.enumAvail = false ∨ env.enumResult = none
  ∨ ∃ f, env.enumResult = some f ∧ f ≤ 1

/-- The device-context step yields no usable value: the gdi32 symbols are
unavailable, `CreateDCW` fails, or `GetDeviceCaps` reports 0 or 1. -/
def gdiNoAnswer (env : RefreshEnv) : Prop :=
  env.gdiAvail = false ∨ env.createDCResult = none
  ∨ ∃ c, env.createDCResult = some c ∧ c ≤ 1

/-! ## Maximum refresh rate from the display-mode list (lines 807-827) -/

/-- Environment of the mode-list block: whether `QueryInterface` and the
counting `GetDisplayModeList1` call succeeded with a positive count, the
returned modes, and whether the fetching call succeeded. -/
structure ModeListEnv where
  queryOk : Bool
  modes : List DXGI_RATIONAL
  fetchOk : Bool
deriving DecidableEq

/-- The maximum-refresh-rate block: only when the counting call succeeds
with `modeCount > 0` and the fetch succeeds is a maximum computed — the fold
of `std::max` over the modes' rates, seeded with `kDefaultRefreshRate`
(60 Hz).  `none` = the program prints no maximum refresh rate. -/
def maxRefreshRateReport (env : ModeListEnv) : Option ℚ :=
  if env.queryOk ∧ 0 < env.modes.length ∧ env.fetchOk then
    some (env.modes.foldl (fun acc m => max acc (rationalRate m)) 60)
  else none

/-! ## `wmain` startup preconditions (lines 693-719) -/

/-- `ERROR_ACCESS_DENIED`. -/
def ERROR_ACCESS_DENIED : Nat := 5

/-- Host state `wmain`'s precondition chain depends on: which libraries
loaded, whether the optional `SetProcessDpiAwarenessContext` symbol resolved
and what its call reported, and whether the `CreateDXGIFactory1` symbol
resolved and its invocation succeeded. -/
structure WmainEnv where
  user32Avail : Bool
  gdi32Avail : Bool
  dxgiAvail : Bool
  shcoreAvail : Bool
  setupapiAvail : Bool
  dpiAwarenessAvail : Bool
  dpiAwarenessOk : Bool
  dpiAwarenessErr : Nat
  factoryFnAvail : Bool
  factoryCallOk : Bool
deriving DecidableEq

/-- Exit status of the run: the precondition chain of `wmain` in source
order; once the factory exists, every later failure is skip-and-continue and
the run ends with `EXIT_SUCCESS` (0). -/
def wmainExit (e : WmainEnv) : Nat :=
  if e.user32Avail = false then 1
  else if e.dxgiAvail = false then 1
  else if e.dpiAwarenessAvail ∧ e.dpiAwarenessOk = false ∧ e.dpiAwarenessErr ≠ ERROR_ACCESS_DENIED then 1
  else if e.factoryFnAvail = false then 1
  else if e.factoryCallOk = false then 1
  else 0

/-! ## Driver-info resolver (`getDriverInfo`, lines 521-666)

The setupapi device walk and the registry wrapper are modelled as an
environment.  A device entry records, for each property the program reads,
whether `SetupDiGetDevicePropertyW` succeeds and with what value (the date
already decoded to year/month/day, as `FileTimeToSystemTime` leaves it).
The m4x1m1l14n registry wrapper can throw; each access of the AMD branch is
modelled by an outcome that is `absent` (`HasValue` false), a `value`, or
`thrown` (an exception, caught by the branch's `try`/`catch`). -/

/-- Outcome of reading one registry value inside the AMD branch. -/
inductive ValueResult where
  | absent
  | value (s : List Char)
  | thrown
deriving DecidableEq

/-- Outcome of the whole AMD registry access: the `Open` call throws,
returns null (`noKey`), or yields a key with the three values the branch
reads. -/
inductive RegResult where
  | thrown
  | noKey
  | key (catalyst edition radeonVersion : ValueResult)
deriving DecidableEq

/-- One display-class device as seen through `SetupDiEnumDeviceInfo` /
`SetupDiGetDevicePropertyW`: `none` models a failed property read. -/
structure DeviceEntry where
  driverDesc : Option (List Char)
  driverKey : Option (List Char)
  provider : Option (List Char)
  version : Option (List Char)
  date : Option (Nat × Nat × Nat)
deriving DecidableEq

/-- Environment of `getDriverInfo`: setupapi symbols resolved,
`SetupDiGetClassDevsW` returned a valid list, the present display-class
devices in enumeration order, and the AMD registry outcome. -/
structure SetupEnv where
  setupAvail : Bool
  classDevsOk : Bool
  devices : List DeviceEntry
  amdReg : RegResult
deriving DecidableEq

/-- The resolver's output record. -/
structure DriverInfo where
  version : List Char
  date : List Char
deriving DecidableEq

/-- The enumeration loop of `getDriverInfo`: skip devices whose description
read fails or whose description does not contain the adapter's device name;
stop at the first match. -/
def findDevice (deviceName : List Char) : List DeviceEntry → Option DeviceEntry
  | [] => none
  | dev :: rest =>
    match dev.driverDesc with
    | none => findDevice deviceName rest
    | some desc =>
      if hasSub desc deviceName then some dev else findDevice deviceName rest

/-- The Radeon part of the AMD branch: after the Catalyst check produced
`v1`, an existing non-empty `RadeonSoftwareEdition` together with an
existing non-empty `RadeonSoftwareVersion` overrides the version with
`edition + L' ' + version`; a thrown access aborts the branch (caught by
the enclosing `try`), keeping `v1`. -/
def amdRadeonPart (v1 : List Char) (edition radeonVersion : ValueResult) : List Char :=
  match edition with
  | ValueResult.thrown => v1
  | ValueResult.absent => v1
  | ValueResult.value e =>
    if e = [] then v1
    else
      match radeonVersion with
      | ValueResult.thrown => v1
      | ValueResult.absent => v1
      | ValueResult.value rv => if rv = [] then v1 else e ++ ' ' :: rv

/-- The body of the AMD branch's `try`: open the key (null or a thrown
exception leaves the raw version), then the `Catalyst_Version` check
(non-empty value gives `"Catalyst " + value`), then the Radeon override.
A throw at any access aborts the rest of the branch and is caught. -/
def amdVersionFromRegistry (raw : List Char) (res : RegResult) : List Char :=
  match res with
  | RegResult.thrown => raw
  | RegResult.noKey => raw
  | RegResult.key catalyst edition radeonVersion =>
    match catalyst with
    | ValueResult.thrown => raw
    | ValueResult.absent => amdRadeonPart raw edition radeonVersion
    | ValueResult.value c =>
      let v1 := if c = [] then raw else ("Catalyst ".toList) ++ c
      amdRadeonPart v1 edition radeonVersion

/-- The NVIDIA `if` of `getDriverInfo`: applied when the provider name
contains `"NVIDIA"`; its `insert` can throw out of the function. -/
def nvidiaStep (providerName v : List Char) : Except Unit (List Char) :=
  if hasSub providerName ("NVIDIA".toList) then nvidiaRewrite v
  else Except.ok v

/-- The AMD `if` of `getDriverInfo`: applied when the provider name contains
`"Advanced Micro Devices"` and the driver registry key name is non-empty. -/
def amdStep (providerName registryKeyName v : List Char) (res : RegResult) : List Char :=
  if hasSub providerName ("Advanced Micro Devices".toList) then
    if registryKeyName = [] then v else amdVersionFromRegistry v res
  else v

/-- The Intel `if` of `getDriverInfo`: applied when the provider name
contains `"Intel"`. -/
def intelStep (providerName v : List Char) : List Char :=
  if hasSub providerName ("Intel".toList) then intelRewrite v else v

/-- The three vendor-specific rewrites of `getDriverInfo` in source order
(NVIDIA, AMD, Intel); only the NVIDIA one can throw. -/
def resolveVersion (providerName registryKeyName rawVersion : List Char)
    (reg : RegResult) : Except Unit (List Char) :=
  match nvidiaStep providerName rawVersion with
  | Except.error e => Except.error e
  | Except.ok v1 => Except.ok (intelStep providerName (amdStep providerName registryKeyName v1 reg))

/-- `getDriverInfo` (lines 521-666): guard on the device name and the
setupapi capabilities, find the first present display-class device whose
description contains the adapter name, read the driver registry key name
(failure tolerated, leaves it empty), then provider, version and date (each
failure returns `false`, i.e. `Except.ok none`, with the output untouched),
format the date, apply the vendor rewrites, and fill the output.
`Except.error ()` is an exception escaping the function. -/
def getDriverInfo (deviceName : List Char) (env : SetupEnv) : Except Unit (Option DriverInfo) :=
  if deviceName = [] then Except.ok none
  else if env.setupAvail = false then Except.ok none
  else if env.classDevsOk = false then Except.ok none
  else
    match findDevice deviceName env.devices with
    | none => Except.ok none
    | some dev =>
      let registryKeyName :=
        match dev.driverKey with
        | some k => shrinkToFit k
        | none => []
      match dev.provider with
      | none => Except.ok none
      | some provRaw =>
        let providerName := shrinkToFit provRaw
        match dev.version with
        | none => Except.ok none
        | some verRaw =>
          match dev.date with
          | none => Except.ok none
          | some (y, m, d) =>
            let driverDate := natStr y ++ '-' :: natStr m ++ '-' :: natStr d
            match resolveVersion providerName registryKeyName (shrinkToFit verRaw) env.amdReg with
            | Except.error e => Except.error e
            | Except.ok ver => Except.ok (some ⟨ver, driverDate⟩)

/-! ## Theorems -/

/-- Claim C9: `vendorIdToVendor` is a total pure function: every id outside
the registered table maps to `Unknown`, every registered id maps stably to
its table entry, and the reverse lookup in `vendorNameMap` succeeds for
every vendor `vendorIdToVendor` can return. -/
theorem vendor_mapping_total (id : Nat) :
    (idMapFind vendorIdMap id = none → vendorIdToVendor id = vendor_t.Unknown)
    ∧ (∀ v, idMapFind vendorIdMap id = some v → vendorIdToVendor id = v)
    ∧ (nameMapFind vendorNameMap (vendorIdToVendor id)).isSome = true := by
  have hall : ∀ v : vendor_t, (nameMapFind vendorNameMap v).isSome = true := by
    intro v; cases v <;> rfl
  refine ⟨?_, ?_, hall _⟩
  · intro h; simp [vendorIdToVendor, h]
  · intro v h; simp [vendorIdToVendor, h]

/-- Witness for `vendor_mapping_total` at the NVIDIA id and at an
unregistered id. -/
theorem vendor_mapping_total_witness :
    idMapFind vendorIdMap 0x10DE = some vendor_t.Nvidia
    ∧ vendorIdToVendor 0x10DE = vendor_t.Nvidia
    ∧ vendorIdToVendor 0xABCD = vendor_t.Unknown
    ∧ (nameMapFind vendorNameMap (vendorIdToVendor 0x10DE)).isSome = true := by
  refine ⟨by decide, (vendor_mapping_total 0x10DE).2.1 vendor_t.Nvidia (by decide),
    (vendor_mapping_total 0xABCD).1 (by decide), (vendor_mapping_total 0x10DE).2.2⟩

/-- Absent character: `wstring::find` returning `npos` means the character
is not in the string. -/
theorem findCharIdx_eq_none {s : List Char} {c : Char} (h : findCharIdx s c = none) :
    c ∉ s := by
  induction s with
  | nil => simp
  | cons d t ih =>
    by_cases hd : d = c
    · simp [findCharIdx, hd] at h
    · simp only [findCharIdx, hd, if_false, Option.map_eq_none'] at h
      simp only [List.mem_cons, not_or]
      exact ⟨fun hc => hd hc.symm, ih h⟩

/-- Found character: `wstring::find` returning an index splits the string at
the first occurrence. -/
theorem findCharIdx_eq_some {s : List Char} {c : Char} {i : Nat}
    (h : findCharIdx s c = some i) :
    ∃ pre suf, s = pre ++ c :: suf ∧ pre.length = i ∧ c ∉ pre := by
  induction s generalizing i with
  | nil => simp [findCharIdx] at h
  | cons d t ih =>
    by_cases hd : d = c
    · simp only [findCharIdx, hd, if_true, Option.some.injEq] at h
      exact ⟨[], t, by simp [hd, ← h]⟩
    · simp only [findCharIdx, hd, if_false, Option.map_eq_some'] at h
      obtain ⟨j, hj, hji⟩ := h
      obtain ⟨pre, suf, hsplit, hlen, hmem⟩ := ih hj
      refine ⟨d :: pre, suf, by simp [hsplit], by simp [hlen, ← hji], ?_⟩
      simp only [List.mem_cons, not_or]
      exact ⟨fun hc => hd hc.symm, hmem⟩

/-- `erase(index, 1)` at the split point removes exactly the split
character. -/
theorem eraseIdx_split (pre suf : List Char) (c : Char) :
    (pre ++ c :: suf).eraseIdx pre.length = pre ++ suf := by
  induction pre with
  | nil => rfl
  | cons d t ih => simpa [List.eraseIdx] using ih

/-- With enough fuel, the find-and-erase loop removes exactly the `'.'`
characters. -/
theorem removeAllDotsAux_eq_filter :
    ∀ (fuel : Nat) (s : List Char), s.count '.' ≤ fuel →
      removeAllDotsAux fuel s = s.filter (fun x => x != '.') := by
  intro fuel
  induction fuel with
  | zero =>
    intro s hs
    have h0 : s.count '.' = 0 := Nat.le_zero.mp hs
    have hmem : ∀ x ∈ s, x ≠ '.' := by
      intro x hx hc
      have := List.count_pos_iff.mpr (hc ▸ hx)
      omega
    simp only [removeAllDotsAux]
    rw [List.filter_eq_self.mpr]
    intro a ha
    simpa using hmem a ha
  | succ fuel ih =>
    intro s hs
    simp only [removeAllDotsAux]
    cases hf : findCharIdx s '.' with
    | none =>
      have := findCharIdx_eq_none hf
      rw [List.filter_eq_self.mpr]
      intro a ha
      simp only [bne_iff_ne, ne_eq]
      intro hc; exact this (hc ▸ ha)
    | some i =>
      obtain ⟨pre, suf, hsplit, hlen, hmem⟩ := findCharIdx_eq_some hf
      subst hsplit
      dsimp only
      rw [← hlen, eraseIdx_split]
      have hcount : (pre ++ suf).count '.' ≤ fuel := by
        simp only [List.count_append, List.count_cons] at hs ⊢
        simp only [beq_self_eq_true, if_true] at hs
        omega
      rw [ih _ hcount]
      simp [List.filter_append, List.filter_cons]

/-- The erase loop of the NVIDIA branch terminates (its fuel suffices) and
keeps exactly the non-dot characters, in order. -/
theorem removeAllDots_eq_filter (s : List Char) :
    removeAllDots s = s.filter (fun x => x != '.') :=
  removeAllDotsAux_eq_filter s.length s (List.count_le_length ..)

/-- Filtering a character away shortens a list by its occurrence count. -/
theorem filter_bne_length (s : List Char) (c : Char) :
    (s.filter (fun x => x != c)).length + s.count c = s.length := by
  induction s with
  | nil => rfl
  | cons d t ih =>
    by_cases hd : d = c
    · subst hd
      simp only [List.filter_cons, List.count_cons, bne_self_eq_false, Bool.false_eq_true,
        if_false, beq_self_eq_true, if_true, List.length_cons]
      omega
    · have hb : (d != c) = true := by simpa using hd
      have hbeq : (d == c) = false := by
        simpa using hd
      simp only [List.filter_cons, List.count_cons, hb, if_true, hbeq, Bool.false_eq_true,
        if_false, List.length_cons]
      omega

/-- Length of the NVIDIA branch's string after the erase loop. -/
theorem removeAllDots_length (s : List Char) :
    (removeAllDots s).length + s.count '.' = s.length := by
  rw [removeAllDots_eq_filter]; exact filter_bne_length s '.'

/-- Claim C3: when the provider name contains `"NVIDIA"`, `getDriverInfo`
rewrites `"9.18.13.4788"` to exactly `"347.88"` (last six characters, dots
stripped, one dot re-inserted after the third character), and a version
shorter than six characters is left unmodified. -/
theorem nvidia_version_rewrite (providerName : List Char)
    (h : hasSub providerName ("NVIDIA".toList) = true) :
    nvidiaStep providerName ("9.18.13.4788".toList) = Except.ok ("347.88".toList)
    ∧ (∀ v, v.length < 6 → nvidiaStep providerName v = Except.ok v)
    ∧ (∀ v, 6 ≤ v.length →
        nvidiaStep providerName v
          = insertAt (removeAllDots (v.drop (v.length - 6))) 3 '.') := by
  refine ⟨?_, ?_, ?_⟩
  · simp only [nvidiaStep, h, if_true]; decide
  · intro v hv
    simp only [nvidiaStep, h, if_true, nvidiaRewrite]
    rw [if_neg (by omega)]
  · intro v hv
    simp only [nvidiaStep, h, if_true, nvidiaRewrite]
    rw [if_pos hv]

/-- Witness for `nvidia_version_rewrite` with provider `"NVIDIA"`. -/
theorem nvidia_version_rewrite_witness :
    hasSub ("NVIDIA".toList) ("NVIDIA".toList) = true
    ∧ nvidiaStep ("NVIDIA".toList) ("9.18.13.4788".toList) = Except.ok ("347.88".toList)
    ∧ nvidiaStep ("NVIDIA".toList) ("1.2".toList) = Except.ok ("1.2".toList) := by
  have h := nvidia_version_rewrite ("NVIDIA".toList) (by decide)
  exact ⟨by decide, h.1, h.2.1 _ (by decide)⟩

/-- Claim C10, counterexample: the version `"1.....2"` has length at least 6,
yet the NVIDIA rewrite throws (`insert(3, L".")` out of range: its last six
characters hold five dots, so after the erase loop only one character is
left). -/
theorem nvidia_insert_throw_cex :
    6 ≤ ("1.....2".toList).length
    ∧ nvidiaRewrite ("1.....2".toList) = Except.error () := by decide

/-- Claim C10, amended: for a version of length at least 6, the NVIDIA
rewrite's insertion at position 3 is in bounds exactly when the last six
characters contain at most three `'.'` characters; with four or more the
insert throws. -/
theorem nvidia_insert_in_bounds (v : List Char) (h : 6 ≤ v.length) :
    ((v.drop (v.length - 6)).count '.' ≤ 3 →
      ∃ r, nvidiaRewrite v = Except.ok r)
    ∧ (3 < (v.drop (v.length - 6)).count '.' →
      nvidiaRewrite v = Except.error ()) := by
  have hdrop : (v.drop (v.length - 6)).length = 6 := by
    rw [List.length_drop]; omega
  have hlen := removeAllDots_length (v.drop (v.length - 6))
  rw [hdrop] at hlen
  constructor
  · intro hc
    simp only [nvidiaRewrite, insertAt]
    rw [if_pos h, if_pos (by omega)]
    exact ⟨_, rfl⟩
  · intro hc
    simp only [nvidiaRewrite, insertAt]
    rw [if_pos h, if_neg (by omega)]

/-- Witness for `nvidia_insert_in_bounds`: a version with three or fewer
dots in its last six characters succeeds, one with four throws. -/
theorem nvidia_insert_in_bounds_witness :
    (∃ r, nvidiaRewrite ("9.18.13.4788".toList) = Except.ok r)
    ∧ nvidiaRewrite ("1....4".toList) = Except.error () := by
  have h1 := nvidia_insert_in_bounds ("9.18.13.4788".toList) (by decide)
  have h2 := nvidia_insert_in_bounds ("1....4".toList) (by decide)
  exact ⟨h1.1 (by decide), h2.2 (by decide)⟩

/-- Claim C2, divergence: for an Intel provider, the raw version
`"27.20.100.8935"` becomes `".100.8935"` — the code's `substr(index)` keeps
the second dot, while both the claim and the code's own comment
(`27.20.100.8935 -> 100.8935`) expect the text after it. -/
theorem intel_rewrite_keeps_second_dot :
    intelStep ("Intel Corporation".toList) ("27.20.100.8935".toList) = (".100.8935".toList)
    ∧ intelStep ("Intel Corporation".toList) ("27.20.100.8935".toList) ≠ ("100.8935".toList) := by
  decide

/-- The SDR loop returns the converted value of the first path whose query
succeeds, skipping failed paths. -/
theorem sdrLoop_first_success (pre : List (Option Nat)) (raw : Nat) (rest : List (Option Nat))
    (hpre : ∀ x ∈ pre, x = none) :
    sdrLoop (pre ++ some raw :: rest) = some (sdrNits raw) := by
  induction pre with
  | nil => rfl
  | cons x t ih =>
    have hx : x = none := hpre x (by simp)
    subst hx
    simpa [sdrLoop] using ih fun y hy => hpre y (by simp [hy])

/-- The SDR loop fails when every path's query fails. -/
theorem sdrLoop_all_fail (paths : List (Option Nat)) (h : ∀ x ∈ paths, x = none) :
    sdrLoop paths = none := by
  induction paths with
  | nil => rfl
  | cons x t ih =>
    have hx : x = none := h x (by simp)
    subst hx
    simpa [sdrLoop] using ih fun y hy => h y (by simp [hy])

/-- Claim C5: `getSdrWhiteLevelInNit` converts the raw OS value by exactly
`float(raw) / 1000.f * 80.f` in binary32 arithmetic — raw 1000 ↦ 80, raw 0
↦ 0, raw 1250 ↦ 100 — stops at the first path whose device-info query
succeeds, and reports failure only when no path answers (or the query
symbol is unavailable). -/
theorem sdr_white_level_resolution (deviceInfoAvail : Bool) (paths : List (Option Nat)) :
    (deviceInfoAvail = false → getSdrWhiteLevelInNit deviceInfoAvail paths = none)
    ∧ (∀ pre raw rest, paths = pre ++ some raw :: rest → (∀ x ∈ pre, x = none) →
        getSdrWhiteLevelInNit true paths = some (sdrNits raw))
    ∧ ((∀ x ∈ paths, x = none) → getSdrWhiteLevelInNit deviceInfoAvail paths = none)
    ∧ sdrNits 1000 = 80 ∧ sdrNits 0 = 0 ∧ sdrNits 1250 = 100 := by
  refine ⟨?_, ?_, ?_, ?_, ?_, ?_⟩
  · intro h; simp [getSdrWhiteLevelInNit, h]
  · intro pre raw rest hsplit hpre
    subst hsplit
    simp [getSdrWhiteLevelInNit, sdrLoop_first_success pre raw rest hpre]
  · intro h
    cases deviceInfoAvail with
    | false => simp [getSdrWhiteLevelInNit]
    | true => simp [getSdrWhiteLevelInNit, sdrLoop_all_fail paths h]
  · with_unfolding_all decide
  · with_unfolding_all decide
  · with_unfolding_all decide

/-- Witness for `sdr_white_level_resolution`: a failed first path is
skipped, raw 1000 on the second path yields 80 nits; an unavailable query
symbol fails. -/
theorem sdr_white_level_resolution_witness :
    getSdrWhiteLevelInNit true [none, some 1000] = some 80
    ∧ getSdrWhiteLevelInNit false [some 1000] = none := by
  have h := sdr_white_level_resolution true [none, some 1000]
  have h1 := h.2.1 [none] 1000 [] rfl (by simp)
  rw [h.2.2.2.1] at h1
  exact ⟨h1, (sdr_white_level_resolution false [some 1000]).1 rfl⟩

/-- A `std::max` fold never goes below its seed. -/
theorem foldl_max_le (l : List DXGI_RATIONAL) :
    ∀ a : ℚ, a ≤ l.foldl (fun acc m => max acc (rationalRate m)) a := by
  induction l with
  | nil => intro a; simp
  | cons m t ih =>
    intro a
    calc a ≤ max a (rationalRate m) := le_max_left ..
    _ ≤ _ := ih _

/-- Claim C8, amended: when the mode-list query and fetch succeed with a
non-empty list, the maximum refresh rate is the `std::max` fold of the
modes' numerator/denominator rates seeded with the 60 Hz floor (hence never
below 60); when the query fails or returns no modes, no maximum refresh
rate is reported at all. -/
theorem max_refresh_rate_seeded (env : ModeListEnv) :
    (env.queryOk = true → 0 < env.modes.length → env.fetchOk = true →
      maxRefreshRateReport env
        = some (env.modes.foldl (fun acc m => max acc (rationalRate m)) 60)
      ∧ (∀ r, maxRefreshRateReport env = some r → 60 ≤ r))
    ∧ ((env.queryOk = false ∨ env.modes = [] ∨ env.fetchOk = false) →
      maxRefreshRateReport env = none) := by
  constructor
  · intro hq hm hf
    have heq : maxRefreshRateReport env
        = some (env.modes.foldl (fun acc m => max acc (rationalRate m)) 60) := by
      simp [maxRefreshRateReport, hq, hm, hf]
    refine ⟨heq, ?_⟩
    intro r hr
    rw [heq] at hr
    obtain rfl : env.modes.foldl (fun acc m => max acc (rationalRate m)) 60 = r :=
      Option.some.inj hr
    exact foldl_max_le env.modes 60
  · intro h
    rcases h with h | h | h <;> simp [maxRefreshRateReport, h]

/-- Claim C8, counterexample: an empty mode list yields no reported value at
all — not the claimed 60 Hz. -/
theorem max_refresh_rate_empty_cex :
    maxRefreshRateReport ⟨true, [], true⟩ = none
    ∧ maxRefreshRateReport ⟨true, [], true⟩ ≠ some 60 := by
  constructor
  · simp [maxRefreshRateReport]
  · simp [maxRefreshRateReport]

/-- Witness for `max_refresh_rate_seeded`: one 120 Hz mode reports 120; a
failed query reports nothing. -/
theorem max_refresh_rate_seeded_witness :
    maxRefreshRateReport ⟨true, [⟨120, 1⟩], true⟩ = some 120
    ∧ (60 : ℚ) ≤ 120
    ∧ maxRefreshRateReport ⟨false, [⟨120, 1⟩], true⟩ = none := by
  have h := (max_refresh_rate_seeded ⟨true, [⟨120, 1⟩], true⟩).1 rfl (by decide) rfl
  have hv : ([⟨120, 1⟩] : List DXGI_RATIONAL).foldl
      (fun acc m => max acc (rationalRate m)) 60 = 120 := by
    with_unfolding_all decide
  have h2 := (max_refresh_rate_seeded ⟨false, [⟨120, 1⟩], true⟩).2 (Or.inl rfl)
  refine ⟨?_, by norm_num, h2⟩
  rw [h.1, hv]

/-- When no path carries a usable numerator/denominator pair, the path scan
falls through: empty device name fails outright, otherwise the legacy
fallback runs. -/
theorem getRefreshRate_no_usable (env : RefreshEnv) (dne : Bool) (paths : List DXGI_RATIONAL)
    (h : ∀ q ∈ paths, ¬usablePath q) :
    getRefreshRate env dne paths = if dne then (none, ⟨0, 0, 0, 0⟩) else refreshFallback env := by
  induction paths with
  | nil => rfl
  | cons p rest ih =>
    have hp : ¬usablePath p := h p (by simp)
    simp only [usablePath] at hp
    simp only [getRefreshRate]
    rw [if_neg hp]
    exact ih fun q hq => h q (by simp [hq])

/-- The path scan returns at the first usable path, consulting no legacy
source (all call counters zero). -/
theorem getRefreshRate_first_usable (env : RefreshEnv) (dne : Bool)
    (pre : List DXGI_RATIONAL) (p : DXGI_RATIONAL) (rest : List DXGI_RATIONAL)
    (hpre : ∀ q ∈ pre, ¬usablePath q) (hp : usablePath p) :
    getRefreshRate env dne (pre ++ p :: rest) = (some (rationalRate p), ⟨0, 0, 0, 0⟩) := by
  induction pre with
  | nil =>
    have hp' : 0 < p.Numerator ∧ 0 < p.Denominator := hp
    simp only [List.nil_append, getRefreshRate]
    rw [if_pos hp']
  | cons q t ih =>
    have hq : ¬usablePath q := hpre q (by simp)
    simp only [usablePath] at hq
    simp only [List.cons_append, getRefreshRate]
    rw [if_neg hq]
    exact ih fun x hx => hpre x (by simp [hx])

/-- Fallback step (b): an available `EnumDisplaySettingsW` reporting a
frequency greater than 1 answers, without touching gdi32. -/
theorem refreshFallback_enum (env : RefreshEnv) (freq : Nat)
    (ha : env.enumAvail = true) (hr : env.enumResult = some freq) (hf : 1 < freq) :
    refreshFallback env = (some (round32 (freq : ℚ)), ⟨1, 0, 0, 0⟩) := by
  simp [refreshFallback, ha, hr, hf]

/-- Fallback step (c): when step (b) gave no usable value, an available
gdi32 with a created device context reporting `VREFRESH` greater than 1
answers; the context is created and deleted exactly once. -/
theorem refreshFallback_gdi (env : RefreshEnv) (caps : Int)
    (he : enumNoAnswer env) (hg : env.gdiAvail = true)
    (hc : env.createDCResult = some caps) (hv : 1 < caps) :
    refreshFallback env
      = (some (round32 (caps : ℚ)), ⟨if env.enumAvail then 1 else 0, 1, 1, 1⟩) := by
  have henum : (if env.enumAvail then
      match env.enumResult with
      | some freq => if 1 < freq then some (round32 (freq : ℚ)) else none
      | none => none
    else none) = (none : Option ℚ) := by
    rcases he with h | h | ⟨f, hf, hle⟩
    · simp [h]
    · simp [h]
    · simp [hf, Nat.not_lt.mpr hle]
  simp only [refreshFallback, henum, hg, if_true, hc]
  rw [if_pos hv]

/-- When neither legacy step yields a usable value the fallback reports
failure. -/
theorem refreshFallback_none (env : RefreshEnv)
    (he : enumNoAnswer env) (hg : gdiNoAnswer env) :
    (refreshFallback env).1 = none := by
  have henum : (if env.enumAvail then
      match env.enumResult with
      | some freq => if 1 < freq then some (round32 (freq : ℚ)) else none
      | none => none
    else none) = (none : Option ℚ) := by
    rcases he with h | h | ⟨f, hf, hle⟩
    · simp [h]
    · simp [h]
    · simp [hf, Nat.not_lt.mpr hle]
  simp only [refreshFallback, henum]
  rcases hg with h | h | ⟨c, hc, hle⟩
  · simp [h]
  · cases hga : env.gdiAvail <;> simp [h]
  · cases hga : env.gdiAvail <;> simp [hc, Int.not_lt.mpr hle]

/-- Every device context the fallback creates is deleted, on every exit
path. -/
theorem refreshFallback_dc_balance (env : RefreshEnv) :
    (refreshFallback env).2.deleteDCCalls = (refreshFallback env).2.dcCreated := by
  rcases env with ⟨ea, er, ga, cr, dok⟩
  cases ea <;> cases ga <;> rcases er with _ | f <;> rcases cr with _ | c <;>
    simp [refreshFallback] <;> split_ifs <;> rfl

/-- Every device context `getRefreshRate` creates is deleted, on every exit
path. -/
theorem getRefreshRate_dc_balance (env : RefreshEnv) (dne : Bool)
    (paths : List DXGI_RATIONAL) :
    (getRefreshRate env dne paths).2.deleteDCCalls
      = (getRefreshRate env dne paths).2.dcCreated := by
  induction paths with
  | nil =>
    simp only [getRefreshRate]
    cases dne
    · simpa using refreshFallback_dc_balance env
    · rfl
  | cons p rest ih =>
    simp only [getRefreshRate]
    by_cases hp : 0 < p.Numerator ∧ 0 < p.Denominator
    · rw [if_pos hp]
    · rw [if_neg hp]; exact ih

/-- Claim C1: `getRefreshRate` resolves through a strict-priority fallback
chain — first usable path numerator/denominator (legacy sources never
consulted, counters zero); else the current-display-settings frequency under
the greater-than-1 rule; else the device-context vertical-refresh capability
under the same rule, the context deleted on every exit path; if every step
fails the function reports failure and the caller's 60 Hz default stands. -/
theorem refresh_rate_fallback_chain (env : RefreshEnv) (dne : Bool) (paths : List DXGI_RATIONAL) :
    (∀ pre p rest, paths = pre ++ p :: rest → (∀ q ∈ pre, ¬usablePath q) → usablePath p →
      getRefreshRate env dne paths = (some (rationalRate p), ⟨0, 0, 0, 0⟩))
    ∧ ((∀ q ∈ paths, ¬usablePath q) → dne = false → env.enumAvail = true →
        ∀ freq, env.enumResult = some freq → 1 < freq →
        getRefreshRate env dne paths = (some (round32 (freq : ℚ)), ⟨1, 0, 0, 0⟩))
    ∧ ((∀ q ∈ paths, ¬usablePath q) → dne = false → enumNoAnswer env →
        env.gdiAvail = true → ∀ caps, env.createDCResult = some caps → 1 < caps →
        getRefreshRate env dne paths
          = (some (round32 (caps : ℚ)), ⟨if env.enumAvail then 1 else 0, 1, 1, 1⟩))
    ∧ ((∀ q ∈ paths, ¬usablePath q) → (dne = true ∨ (enumNoAnswer env ∧ gdiNoAnswer env)) →
        (getRefreshRate env dne paths).1 = none
        ∧ (getRefreshRate env dne paths).1.getD 60 = 60)
    ∧ (getRefreshRate env dne paths).2.deleteDCCalls
        = (getRefreshRate env dne paths).2.dcCreated := by
  refine ⟨?_, ?_, ?_, ?_, getRefreshRate_dc_balance env dne paths⟩
  · intro pre p rest hsplit hpre hp
    subst hsplit
    exact getRefreshRate_first_usable env dne pre p rest hpre hp
  · intro hnone hdne ha freq hr hf
    rw [getRefreshRate_no_usable env dne paths hnone, hdne]
    simpa using refreshFallback_enum env freq ha hr hf
  · intro hnone hdne he hg caps hc hv
    rw [getRefreshRate_no_usable env dne paths hnone, hdne]
    simpa using refreshFallback_gdi env caps he hg hc hv
  · intro hnone hcases
    rcases hcases with hdne | ⟨he, hg⟩
    · rw [getRefreshRate_no_usable env dne paths hnone, hdne]
      exact ⟨rfl, rfl⟩
    · rw [getRefreshRate_no_usable env dne paths hnone]
      cases dne with
      | true => exact ⟨rfl, rfl⟩
      | false =>
        have h1 := refreshFallback_none env he hg
        simp only [Bool.false_eq_true, if_false]
        exact ⟨h1, by rw [h1]; rfl⟩

/-- Witness for `refresh_rate_fallback_chain`: a usable 60/1 path after an
unusable 0/1 path answers 60 with no legacy calls; with no usable path the
settings frequency 120 answers; with settings unavailable the device
context's 75 answers with one created and one deleted context; with
everything unavailable the caller's 60 Hz default stands. -/
theorem refresh_rate_fallback_chain_witness :
    getRefreshRate ⟨true, some 120, true, some 75, true⟩ false [⟨0, 1⟩, ⟨60, 1⟩]
      = (some 60, ⟨0, 0, 0, 0⟩)
    ∧ getRefreshRate ⟨true, some 120, true, some 75, true⟩ false []
      = (some (round32 (120 : ℚ)), ⟨1, 0, 0, 0⟩)
    ∧ getRefreshRate ⟨false, none, true, some 75, true⟩ false []
      = (some (round32 ((75 : Int) : ℚ)), ⟨0, 1, 1, 1⟩)
    ∧ (getRefreshRate ⟨false, none, false, none, true⟩ false []).1.getD 60 = 60 := by
  refine ⟨?_, ?_, ?_, ?_⟩
  · have h := (refresh_rate_fallback_chain ⟨true, some 120, true, some 75, true⟩ false
      [⟨0, 1⟩, ⟨60, 1⟩]).1 [⟨0, 1⟩] ⟨60, 1⟩ [] rfl
      (by intro q hq; simp at hq; subst hq; simp [usablePath])
      (by simp [usablePath])
    have hv : rationalRate ⟨60, 1⟩ = 60 := by with_unfolding_all decide
    rw [hv] at h
    exact h
  · exact (refresh_rate_fallback_chain _ _ _).2.1 (by simp) rfl rfl 120 rfl (by omega)
  · have h := (refresh_rate_fallback_chain ⟨false, none, true, some 75, true⟩ false []).2.2.1
      (by simp) rfl (Or.inl rfl) rfl 75 rfl (by omega)
    simpa using h
  · exact ((refresh_rate_fallback_chain _ _ _).2.2.2.1 (by simp)
      (Or.inr ⟨Or.inl rfl, Or.inl rfl⟩)).2


/-- Claim C7: the run exits non-zero exactly when a mandatory capability is
absent — user32 or dxgi failed to load, the DPI-awareness declaration failed
with an error other than access-denied, the `CreateDXGIFactory1` entry point
is unresolved, or its invocation failed; an access-denied DPI failure is
treated as success, and the other libraries (gdi32, shcore, setupapi) never
affect the exit status. -/
theorem wmain_fatal_preconditions (e : WmainEnv) :
    (wmainExit e ≠ 0 ↔
      e.user32Avail = false ∨ e.dxgiAvail = false
      ∨ (e.dpiAwarenessAvail = true ∧ e.dpiAwarenessOk = false
          ∧ e.dpiAwarenessErr ≠ ERROR_ACCESS_DENIED)
      ∨ e.factoryFnAvail = false ∨ e.factoryCallOk = false)
    ∧ (e.dpiAwarenessOk = false → e.dpiAwarenessErr = ERROR_ACCESS_DENIED →
        e.user32Avail = true → e.dxgiAvail = true → e.factoryFnAvail = true →
        e.factoryCallOk = true → wmainExit e = 0)
    ∧ (∀ b1 b2 b3,
        wmainExit { e with gdi32Avail := b1, shcoreAvail := b2, setupapiAvail := b3 }
          = wmainExit e) := by
  obtain ⟨u, g, d, sh, su, da, dok, derr, fa, fok⟩ := e
  refine ⟨?_, ?_, ?_⟩
  · simp only [wmainExit]
    cases u <;> cases d <;> cases da <;> cases dok <;> cases fa <;> cases fok <;>
      by_cases hd : derr = ERROR_ACCESS_DENIED <;> simp_all
  · intro h1 h2 h3 h4 h5 h6
    simp_all [wmainExit]
  · intro b1 b2 b3; rfl

/-- Witness for `wmain_fatal_preconditions`: an access-denied DPI failure
still exits 0; a missing user32 exits non-zero. -/
theorem wmain_fatal_preconditions_witness :
    wmainExit ⟨true, true, true, true, true, true, false, 5, true, true⟩ = 0
    ∧ wmainExit ⟨false, true, true, true, true, true, true, 0, true, true⟩ ≠ 0 := by
  refine ⟨?_, ?_⟩
  · exact (wmain_fatal_preconditions _).2.1 rfl rfl rfl rfl rfl rfl
  · exact ((wmain_fatal_preconditions _).1).mpr (Or.inl rfl)

/-- Claim C4, counterexample: a matched device whose driver-registry-key
read fails while provider, version and date succeed still resolves
successfully with a full result — so the key name is not a required
property whose failure fails the whole resolution. -/
theorem driver_key_read_failure_tolerated_cex :
    (⟨some ("Fancy GPU".toList), none, some ("Foo Inc".toList),
        some ("1.2.3".toList), some (2024, 1, 2)⟩ : DeviceEntry).driverKey = none
    ∧ getDriverInfo ("GPU".toList)
        ⟨true, true,
          [⟨some ("Fancy GPU".toList), none, some ("Foo Inc".toList),
            some ("1.2.3".toList), some (2024, 1, 2)⟩],
          RegResult.noKey⟩
      = Except.ok (some ⟨("1.2.3".toList), ("2024-1-2".toList)⟩) := by decide

/-- Claim C4, amended: for the matched display device, the provider name,
raw version string and raw driver date are required — any one failing read
makes `getDriverInfo` return failure with no partial result — while the
driver-registry-key read failure is tolerated (the key name is left empty
and resolution continues); a successful resolution implies all three
required reads succeeded. -/
theorem driver_required_property_reads (deviceName : List Char) (env : SetupEnv)
    (dev : DeviceEntry)
    (hname : deviceName ≠ []) (hsetup : env.setupAvail = true) (hclass : env.classDevsOk = true)
    (hfind : findDevice deviceName env.devices = some dev) :
    (dev.provider = none → getDriverInfo deviceName env = Except.ok none)
    ∧ (dev.version = none → getDriverInfo deviceName env = Except.ok none)
    ∧ (dev.date = none → getDriverInfo deviceName env = Except.ok none)
    ∧ (∀ info, getDriverInfo deviceName env = Except.ok (some info) →
        dev.provider ≠ none ∧ dev.version ≠ none ∧ dev.date ≠ none) := by
  have hs2 : ¬env.setupAvail = false := by simp [hsetup]
  have hs3 : ¬env.classDevsOk = false := by simp [hclass]
  refine ⟨?_, ?_, ?_, ?_⟩
  · intro hp
    simp [getDriverInfo, hname, hs2, hs3, hfind, hp]
  · intro hv
    cases hp : dev.provider with
    | none => simp [getDriverInfo, hname, hs2, hs3, hfind, hp]
    | some prov => simp [getDriverInfo, hname, hs2, hs3, hfind, hp, hv]
  · intro hd
    cases hp : dev.provider with
    | none => simp [getDriverInfo, hname, hs2, hs3, hfind, hp]
    | some prov =>
      cases hv : dev.version with
      | none => simp [getDriverInfo, hname, hs2, hs3, hfind, hp, hv]
      | some ver => simp [getDriverInfo, hname, hs2, hs3, hfind, hp, hv, hd]
  · intro info h
    cases hp : dev.provider with
    | none => simp [getDriverInfo, hname, hs2, hs3, hfind, hp] at h
    | some prov =>
      cases hv : dev.version with
      | none => simp [getDriverInfo, hname, hs2, hs3, hfind, hp, hv] at h
      | some ver =>
        cases hd : dev.date with
        | none => simp [getDriverInfo, hname, hs2, hs3, hfind, hp, hv, hd] at h
        | some ymd => simp [hp, hv, hd]

/-- A registry outcome never turns a successful version resolution into a
failure: only the NVIDIA insert can throw, and it ignores the registry. -/
theorem resolveVersion_thrown_ok (p k v : List Char) (r : RegResult) (w : List Char)
    (h : resolveVersion p k v r = Except.ok w) :
    ∃ w2, resolveVersion p k v RegResult.thrown = Except.ok w2 := by
  unfold resolveVersion at h ⊢
  cases hn : nvidiaStep p v with
  | error e => rw [hn] at h; exact absurd h (by simp)
  | ok v1 => exact ⟨_, rfl⟩

/-- Claim C6: with an AMD provider and a non-empty registry key name, a
thrown registry access or a null key leaves the raw version unchanged, an
existing non-empty `Catalyst_Version` makes the version
`"Catalyst " + value`, existing non-empty `RadeonSoftwareEdition` and
`RadeonSoftwareVersion` override it with `edition + " " + version`, and a
thrown registry access never fails the enclosing driver-info resolution. -/
theorem amd_registry_preference (providerName registryKeyName v : List Char)
    (hprov : hasSub providerName ("Advanced Micro Devices".toList) = true)
    (hkey : registryKeyName ≠ []) :
    amdStep providerName registryKeyName v RegResult.thrown = v
    ∧ amdStep providerName registryKeyName v RegResult.noKey = v
    ∧ (∀ c r, c ≠ [] →
        amdStep providerName registryKeyName v
            (RegResult.key (ValueResult.value c) ValueResult.absent r)
          = ("Catalyst ".toList) ++ c)
    ∧ (∀ c e rv, e ≠ [] → rv ≠ [] →
        amdStep providerName registryKeyName v
            (RegResult.key (ValueResult.value c) (ValueResult.value e) (ValueResult.value rv))
          = e ++ ' ' :: rv)
    ∧ (∀ (deviceName : List Char) (env : SetupEnv) (info : DriverInfo),
        getDriverInfo deviceName env = Except.ok (some info) →
        ∃ info2, getDriverInfo deviceName { env with amdReg := RegResult.thrown }
          = Except.ok (some info2)) := by
  have hstep : ∀ (w : List Char) (res : RegResult),
      amdStep providerName registryKeyName w res = amdVersionFromRegistry w res := by
    intro w res
    unfold amdStep
    rw [if_pos hprov, if_neg hkey]
  refine ⟨?_, ?_, ?_, ?_, ?_⟩
  · rw [hstep]; rfl
  · rw [hstep]; rfl
  · intro c r hc
    rw [hstep]
    simp only [amdVersionFromRegistry, amdRadeonPart]
    rw [if_neg hc]
  · intro c e rv he hrv
    rw [hstep]
    simp only [amdVersionFromRegistry, amdRadeonPart]
    by_cases hc : c = []
    · rw [if_pos hc, if_neg he, if_neg hrv]
    · rw [if_neg hc, if_neg he, if_neg hrv]
  · intro deviceName env info h
    by_cases h1 : deviceName = []
    · simp [getDriverInfo, h1] at h
    · by_cases h2 : env.setupAvail = false
      · simp [getDriverInfo, h1, h2] at h
      · by_cases h3 : env.classDevsOk = false
        · simp [getDriverInfo, h1, h2, h3] at h
        · cases hfind : findDevice deviceName env.devices with
          | none => simp [getDriverInfo, h1, h2, h3, hfind] at h
          | some dev =>
            cases hp : dev.provider with
            | none => simp [getDriverInfo, h1, h2, h3, hfind, hp] at h
            | some prov =>
              cases hv : dev.version with
              | none => simp [getDriverInfo, h1, h2, h3, hfind, hp, hv] at h
              | some ver =>
                cases hd : dev.date with
                | none => simp [getDriverInfo, h1, h2, h3, hfind, hp, hv, hd] at h
                | some ymd =>
                  obtain ⟨y, m, d⟩ := ymd
                  simp only [getDriverInfo, h1, h2, h3, hfind, hp, hv, hd,
                    Bool.true_eq_false, if_false] at h ⊢
                  cases hr1 : resolveVersion (shrinkToFit prov)
                      (match dev.driverKey with
                        | some k => shrinkToFit k
                        | none => []) (shrinkToFit ver) env.amdReg with
                  | error e => rw [hr1] at h; exact absurd h (by simp)
                  | ok w =>
                    obtain ⟨w2, hw2⟩ := resolveVersion_thrown_ok _ _ _ _ _ hr1
                    rw [hw2]
                    exact ⟨_, rfl⟩

/-- Witness for `driver_required_property_reads`: a matched device with a
failed provider read resolves to failure. -/
theorem driver_required_property_reads_witness :
    getDriverInfo ("GPU".toList)
      ⟨true, true,
        [⟨some ("Fancy GPU".toList), some ("key01".toList), none,
          some ("1.2.3".toList), some (2024, 1, 2)⟩],
        RegResult.noKey⟩ = Except.ok none := by
  exact (driver_required_property_reads ("GPU".toList) _
    ⟨some ("Fancy GPU".toList), some ("key01".toList), none,
      some ("1.2.3".toList), some (2024, 1, 2)⟩
    (by decide) rfl rfl (by decide)).1 rfl

/-- Witness for `amd_registry_preference` at concrete AMD registry
contents. -/
theorem amd_registry_preference_witness :
    amdStep ("Advanced Micro Devices, Inc.".toList) ("key01".toList)
        ("31.0.12019.308".toList) RegResult.thrown = ("31.0.12019.308".toList)
    ∧ amdStep ("Advanced Micro Devices, Inc.".toList) ("key01".toList)
        ("31.0.12019.308".toList)
        (RegResult.key (ValueResult.value ("15.7.1".toList)) ValueResult.absent
          ValueResult.absent)
      = ("Catalyst 15.7.1".toList)
    ∧ amdStep ("Advanced Micro Devices, Inc.".toList) ("key01".toList)
        ("31.0.12019.308".toList)
        (RegResult.key (ValueResult.value ("15.7.1".toList))
          (ValueResult.value ("Crimson".toList)) (ValueResult.value ("15.12".toList)))
      = ("Crimson 15.12".toList) := by
  have h := amd_registry_preference ("Advanced Micro Devices, Inc.".toList)
    ("key01".toList) ("31.0.12019.308".toList) (by decide) (by decide)
  refine ⟨h.1, ?_, ?_⟩
  · have h2 := h.2.2.1 ("15.7.1".toList) ValueResult.absent (by decide)
    rw [h2]; decide
  · have h3 := h.2.2.2.1 ("15.7.1".toList) ("Crimson".toList) ("15.12".toList)
      (by decide) (by decide)
    rw [h3]; decide
